import Mathlib

/-!
Verification development for the node-sylvester planar-polygon geometry core
(`src/polygon.js` and the line/segment module).  JS numbers are modelled as
real numbers; `Math.sqrt` is `Real.sqrt` and `Math.acos` is `Real.arccos`.
External collaborators that are not part of the sources (Vector, Plane, the
circular linked list, the global precision constant) are modelled from the
specification's contracts; each such definition is marked in its doc comment.
-/

namespace Sylvester

noncomputable section

open Real

open scoped Classical

/-- Modelled from the spec: a `Vector` canonicalized to exactly 3 real
components (`to3D`); the Vector class itself is an external collaborator. -/
structure Vector3 where
  x : ℝ
  y : ℝ
  z : ℝ

/-- Modelled from the spec: componentwise vector addition. -/
def Vector3.add (a b : Vector3) : Vector3 :=
  ⟨a.x + b.x, a.y + b.y, a.z + b.z⟩

/-- Modelled from the spec: componentwise vector subtraction. -/
def Vector3.subtract (a b : Vector3) : Vector3 :=
  ⟨a.x - b.x, a.y - b.y, a.z - b.z⟩

/-- Modelled from the spec: scalar multiple of a vector. -/
def Vector3.smul (k : ℝ) (a : Vector3) : Vector3 :=
  ⟨k * a.x, k * a.y, k * a.z⟩

/-- Modelled from the spec: dot product. -/
def Vector3.dot (a b : Vector3) : ℝ :=
  a.x * b.x + a.y * b.y + a.z * b.z

/-- Modelled from the spec: cross product. -/
def Vector3.cross (a b : Vector3) : Vector3 :=
  ⟨a.y * b.z - a.z * b.y, a.z * b.x - a.x * b.z, a.x * b.y - a.y * b.x⟩

/-- Modelled from the spec: modulus (euclidean length). -/
def Vector3.modulus (a : Vector3) : ℝ :=
  Real.sqrt (a.x * a.x + a.y * a.y + a.z * a.z)

/-- Modelled from the spec (§6): `angleFrom` returns the angle in `[0, π]`
between two vectors, or the null sentinel when either vector is zero. -/
def Vector3.angleFrom (a b : Vector3) : Option ℝ :=
  if a.modulus = 0 ∨ b.modulus = 0 then none
  else some (Real.arccos (a.dot b / (a.modulus * b.modulus)))

/-- Modelled from the spec (§3): vertex/vector equality is componentwise
within an epsilon. -/
def Vector3.eql (a b : Vector3) (eps : ℝ) : Prop :=
  |a.x - b.x| ≤ eps ∧ |a.y - b.y| ≤ eps ∧ |a.z - b.z| ≤ eps

/-- Modelled from the spec (§6): epsilon-based parallelism test between plain
vectors; the null sentinel from `angleFrom` is falsy in JS. -/
def Vector3.isParallelTo (a b : Vector3) (eps : ℝ) : Prop :=
  ∃ t, a.angleFrom b = some t ∧ |t| ≤ eps

/-- Modelled from the spec (§6): epsilon-based antiparallelism test between
plain vectors; the null sentinel from `angleFrom` is falsy in JS. -/
def Vector3.isAntiparallelTo (a b : Vector3) (eps : ℝ) : Prop :=
  ∃ t, a.angleFrom b = some t ∧ |t - π| ≤ eps

/-- Modelled from the spec (§6): the single global numeric-precision constant
(`Sylvester.precision`, the library ships `1e-6`). -/
def precision : ℝ := 1 / 1000000

/-- A plane: anchor point plus normal, as consumed by the polygon engine. -/
structure Plane where
  anchor : Vector3
  normal : Vector3

/-- Modelled from the spec (§6): plane membership of a point within eps. -/
def Plane.contains (p : Plane) (q : Vector3) (eps : ℝ) : Prop :=
  |p.normal.dot (q.subtract p.anchor)| ≤ eps

/-- Modelled from the spec (§6): the plane fitted through three points, with
unit normal obtained from the cross product of the two edge vectors. -/
def Plane.fromPoints (a b c : Vector3) : Plane :=
  ⟨a, Vector3.smul (1 / ((b.subtract a).cross (c.subtract a)).modulus)
      ((b.subtract a).cross (c.subtract a))⟩

/-- A polygon: the ring of vertices in cyclic order plus its plane.  The ring
(`CircularLinkedList`) is modelled from the spec (§4.1, §9) as a list indexed
with wraparound; the convex/reflex partitions are derived functions below. -/
structure Polygon where
  vertices : List Vector3
  plane : Plane

/-- Modelled from the spec (§4.1): ring indexed access with wraparound. -/
def ringGet (l : List Vector3) (i : ℕ) : Vector3 :=
  l.getD (i % l.length) ⟨0, 0, 0⟩

/-- `Polygon.scale` from `src/polygon.js`: maps every vertex `v` to
`c + k * (v - c)` componentwise; the result plane is built from
`this.vertices.first.data` — the ORIGINAL (untransformed) first vertex —
and the original plane normal. -/
def Polygon.scale (P : Polygon) (k : ℝ) (c : Vector3) : Polygon where
  vertices := P.vertices.map fun v =>
    ⟨c.x + k * (v.x - c.x), c.y + k * (v.y - c.y), c.z + k * (v.z - c.z)⟩
  plane := ⟨P.vertices.headD ⟨0, 0, 0⟩, P.plane.normal⟩

/-- `Line` from the line/segment module: anchor plus unit direction. -/
structure Line where
  anchor : Vector3
  direction : Vector3

/-- The `Line` constructor: normalizes the direction, raising the
degenerate-input (dimensionality) error when the direction has zero
magnitude. -/
def Line.make (anchor direction : Vector3) : Except Unit Line :=
  if direction.modulus = 0 then .error ()
  else
    .ok ⟨anchor, ⟨direction.x / direction.modulus, direction.y / direction.modulus,
      direction.z / direction.modulus⟩⟩

/-- `Line.distanceFrom` for a point operand. -/
def Line.distanceFromPoint (L : Line) (p : Vector3) : ℝ :=
  let PA1 := p.x - L.anchor.x
  let PA2 := p.y - L.anchor.y
  let PA3 := p.z - L.anchor.z
  let modPA := Real.sqrt (PA1 * PA1 + PA2 * PA2 + PA3 * PA3)
  if modPA = 0 then 0
  else
    let cosTheta := (PA1 * L.direction.x + PA2 * L.direction.y + PA3 * L.direction.z) / modPA
    let sin2 := 1 - cosTheta * cosTheta
    |modPA * Real.sqrt (if sin2 < 0 then 0 else sin2)|

/-- `Line.isParallelTo` for a line operand; JS coerces a null angle to `0`
inside `Math.abs`, modelled by `Option.getD 0`. -/
def Line.isParallelToLine (L M : Line) (eps : ℝ) : Prop :=
  let t := (L.direction.angleFrom M.direction).getD 0
  |t| ≤ eps ∨ |t - π| ≤ eps

/-- `Line.distanceFrom` for a line operand; the inner parallel test receives
no epsilon and so uses the global default precision. -/
def Line.distanceFromLine (L M : Line) : ℝ :=
  if L.isParallelToLine M precision then L.distanceFromPoint M.anchor
  else
    let n := L.direction.cross M.direction
    let u := Vector3.smul (1 / n.modulus) n
    |(L.anchor.x - M.anchor.x) * u.x + (L.anchor.y - M.anchor.y) * u.y +
      (L.anchor.z - M.anchor.z) * u.z|

/-- `Line.contains` for a point operand: the distance is within eps. -/
def Line.containsPoint (L : Line) (p : Vector3) (eps : ℝ) : Prop :=
  L.distanceFromPoint p ≤ eps

/-- `Line.intersects` for a line operand: `!this.isParallelTo(obj)` (called
with the default precision) and the distance is within the caller's eps. -/
def Line.intersectsLine (L M : Line) (eps : ℝ) : Prop :=
  ¬ L.isParallelToLine M precision ∧ L.distanceFromLine M ≤ eps

/-- `Line.intersectionWith` for a line operand: null unless `intersects`
(called with the default precision) holds, otherwise the closed-form point.
The divisions are unreachable-by-zero on the non-parallel branch. -/
def Line.intersectionWithLine (L M : Line) : Option Vector3 :=
  if ¬ L.intersectsLine M precision then none
  else
    let P := L.anchor
    let X := L.direction
    let Q := M.anchor
    let Y := M.direction
    let PsubQ1 := P.x - Q.x
    let PsubQ2 := P.y - Q.y
    let PsubQ3 := P.z - Q.z
    let XdotQsubP := -X.x * PsubQ1 - X.y * PsubQ2 - X.z * PsubQ3
    let YdotPsubQ := Y.x * PsubQ1 + Y.y * PsubQ2 + Y.z * PsubQ3
    let XdotX := X.x * X.x + X.y * X.y + X.z * X.z
    let YdotY := Y.x * Y.x + Y.y * Y.y + Y.z * Y.z
    let XdotY := X.x * Y.x + X.y * Y.y + X.z * Y.z
    let k := (XdotQsubP * YdotY / XdotX + XdotY * YdotPsubQ) / (YdotY - XdotY * XdotY)
    some ⟨P.x + k * X.x, P.y + k * X.y, P.z + k * X.z⟩

/-- `Segment`: start and end points plus the underlying line (the source
field `end` is a Lean keyword, rendered `endP`). -/
structure Segment where
  line : Line
  start : Vector3
  endP : Vector3

/-- The `Segment` constructor: builds the underlying line with direction
`end - start`, so equal endpoints raise the dimensionality error. -/
def Segment.make (s e : Vector3) : Except Unit Segment :=
  (Line.make s (e.subtract s)).map fun l => ⟨l, s, e⟩

/-- `Segment.length`. -/
def Segment.length (s : Segment) : ℝ :=
  Real.sqrt ((s.endP.x - s.start.x) * (s.endP.x - s.start.x) +
    (s.endP.y - s.start.y) * (s.endP.y - s.start.y) +
    (s.endP.z - s.start.z) * (s.endP.z - s.start.z))

/-- `Segment.toVector`: the end point relative to the start point. -/
def Segment.toVector (s : Segment) : Vector3 :=
  s.endP.subtract s.start

/-- `Segment.contains` for a point operand; every inner predicate is invoked
without an epsilon and so uses the global default precision. -/
def Segment.containsPoint (s : Segment) (p : Vector3) : Prop :=
  s.start.eql p precision ∨
    ((s.start.subtract p).isAntiparallelTo s.toVector precision ∧
      (s.start.subtract p).modulus ≤ s.toVector.modulus)

/-- Modelled from the spec (§4.1): `findNode` returns the first node whose
data satisfies the predicate, or the not-found sentinel. -/
def findIdxFrom (p : Vector3 → Prop) : List Vector3 → Option ℕ
  | [] => none
  | w :: rest => if p w then some 0 else (findIdxFrom p rest).map (· + 1)

/-- `Polygon.nodeFor` via `findNode` with `vertexCompare`: the index of the
first ring vertex equal (default precision) to the given vertex. -/
def Polygon.nodeFor (P : Polygon) (v : Vector3) : Option ℕ :=
  findIdxFrom (fun w => w.eql v precision) P.vertices

/-- `Vertex.isConvex` from `src/polygon.js`: look the vertex up in the main
ring (invalid-operation error when absent), then classify from the angle
between the edge vectors to the two ring neighbours.  A null angle (a zero
edge vector, from a duplicate neighbour) satisfies the first JS comparison
`null <= precision`, hence `.ok true`. -/
def Vertex.isConvex (v : Vector3) (P : Polygon) : Except Unit Bool :=
  match P.nodeFor v with
  | none => .error ()
  | some i =>
    let n := P.vertices.length
    let prev := ringGet P.vertices (i + n - 1)
    let next := ringGet P.vertices (i + 1)
    let A := next.subtract v
    let B := prev.subtract v
    match A.angleFrom B with
    | none => .ok true
    | some theta =>
      if theta ≤ precision then .ok true
      else if |theta - π| ≤ precision then .ok false
      else .ok (decide (0 < (A.cross B).dot P.plane.normal))

/-- `Vertex.isReflex`: the negation of `isConvex`; an error rethrows. -/
def Vertex.isReflex (v : Vector3) (P : Polygon) : Except Unit Bool :=
  (Vertex.isConvex v P).map fun b => !b

/-- Boolean form of `isConvex` as used by `populateVertexTypeLists`; the
lookup always succeeds for a ring member (equality is reflexive), so the
error branch is unreachable there. -/
def Polygon.isConvexB (P : Polygon) (v : Vector3) : Bool :=
  match Vertex.isConvex v P with
  | .ok b => b
  | .error _ => false

/-- The convex-vertex ring from `populateVertexTypeLists`, in ring order. -/
def Polygon.convexVertices (P : Polygon) : List Vector3 :=
  P.vertices.filter fun v => P.isConvexB v

/-- The reflex-vertex ring from `populateVertexTypeLists`, in ring order. -/
def Polygon.reflexVertices (P : Polygon) : List Vector3 :=
  P.vertices.filter fun v => !P.isConvexB v

/-- The directed boundary edges `(node, node.next)` in ring order. -/
def Polygon.edges (P : Polygon) : List (Vector3 × Vector3) :=
  P.vertices.zip (P.vertices.rotate 1)

/-- One step of `hasEdgeContaining`: `new Line.Segment(a, b)` throws for a
zero-length edge before the containment test can run. -/
def edgeContains (a b p : Vector3) : Except Unit Bool :=
  match Segment.make a b with
  | .error e => .error e
  | .ok s => .ok (decide (s.containsPoint p))

/-- Short-circuiting scan over the edges, as `vertices.some`. -/
def hasEdgeAux (p : Vector3) : List (Vector3 × Vector3) → Except Unit Bool
  | [] => .ok false
  | (a, b) :: rest =>
    match edgeContains a b p with
    | .error e => .error e
    | .ok true => .ok true
    | .ok false => hasEdgeAux p rest

/-- `Polygon.hasEdgeContaining`: note that it accepts no epsilon parameter;
every per-edge segment test uses the global default precision. -/
def Polygon.hasEdgeContaining (P : Polygon) (p : Vector3) : Except Unit Bool :=
  hasEdgeAux p P.edges

/-- One edge's contribution to the winding-number accumulation; the state is
`(theta, loops)`.  The `isParallelTo` sign test receives no epsilon (default
precision); a null result there is falsy in JS, giving the `-1` branch. -/
def windingStep (normal : Vector3) (eps : ℝ) (p : Vector3)
    (st : ℝ × ℤ) (e : Vector3 × Vector3) : ℝ × ℤ :=
  let A : Vector3 := ⟨e.1.x - p.x, e.1.y - p.y, e.1.z - p.z⟩
  let B : Vector3 := ⟨e.2.x - p.x, e.2.y - p.y, e.2.z - p.z⟩
  match A.angleFrom B with
  | none => st
  | some dt =>
    if dt = 0 then st
    else
      let s : ℝ := if (A.cross B).isParallelTo normal precision then 1 else -1
      let theta := st.1 + s * dt
      let st1 : ℝ × ℤ :=
        if theta ≥ 2 * π - eps then (theta - 2 * π, st.2 + 1) else (theta, st.2)
      if st1.1 ≤ -(2 * π) + eps then (st1.1 + 2 * π, st1.2 - 1) else st1

/-- The final `(theta, loops)` state of the winding accumulation. -/
def Polygon.winding (P : Polygon) (p : Vector3) (eps : ℝ) : ℝ × ℤ :=
  P.edges.foldl (windingStep P.plane.normal eps p) (0, 0)

/-- `Polygon.containsByWindingNumber`: reject off-plane points, then points
on a boundary edge, then report whether the loop count is nonzero. -/
def Polygon.containsByWindingNumber (P : Polygon) (p : Vector3) (eps : ℝ) :
    Except Unit Bool :=
  if ¬ P.plane.contains p eps then .ok false
  else
    match P.hasEdgeContaining p with
    | .error e => .error e
    | .ok true => .ok false
    | .ok false => .ok (decide ((P.winding p eps).2 ≠ 0))

/-- `Polygon.contains` delegates to the winding-number method. -/
def Polygon.contains (P : Polygon) (p : Vector3) (eps : ℝ) : Except Unit Bool :=
  P.containsByWindingNumber p eps

/-- `Polygon.trianglesForSurfaceIntegral`: the triangle fan anchored at the
first vertex.  The collinearity test is the source's exact expression: the
signed xy-projected cross value compared one-sidedly (`<`, no `abs`)
against the precision. -/
def Polygon.trianglesForSurfaceIntegral (P : Polygon) : List Polygon :=
  ((List.range P.vertices.length).drop 2).map fun i =>
    let a := ringGet P.vertices 0
    let b := ringGet P.vertices (i - 1)
    let c := ringGet P.vertices i
    let colinear := (a.y - b.y) * (a.x - c.x) - (c.y - a.y) * (a.x - b.x) < precision
    (⟨[a, b, c], if colinear then P.plane else Plane.fromPoints a b c⟩ : Polygon)

/-- The three-vertex branch of `Polygon.area`: half the modulus of the cross
product of two sides, from the first three ring vertices. -/
def areaTri (A B C : Vector3) : ℝ :=
  0.5 * (Vector3.modulus
    ⟨(A.y - B.y) * (C.z - B.z) - (A.z - B.z) * (C.y - B.y),
     (A.z - B.z) * (C.x - B.x) - (A.x - B.x) * (C.z - B.z),
     (A.x - B.x) * (C.y - B.y) - (A.y - B.y) * (C.x - B.x)⟩)

/-- `Polygon.area`.  The source's recursive call on the fan elements always
hits the three-vertex branch (each fan element is built with exactly three
vertices), so that inner call appears here as `areaTri`. -/
def Polygon.area (P : Polygon) : ℝ :=
  if P.vertices.length = 3 then
    areaTri (ringGet P.vertices 0) (ringGet P.vertices 1) (ringGet P.vertices 2)
  else
    (P.trianglesForSurfaceIntegral.map fun t =>
      areaTri (ringGet t.vertices 0) (ringGet t.vertices 1) (ringGet t.vertices 2) *
        t.plane.normal.dot P.plane.normal).sum

/-- `Polygon.removeVertex`: a no-op on a triangle; otherwise filter out every
ring vertex equal (default precision) to the given one, keeping the plane. -/
def Polygon.removeVertex (P : Polygon) (v : Vector3) : Polygon :=
  if P.vertices.length = 3 then P
  else ⟨P.vertices.filter fun w => !decide (v.eql w precision), P.plane⟩

/-- The body of the reflex-vertex rejection (`reflexVertices.some`): a reflex
vertex other than the candidate's two ring neighbours blocks the ear if it
lies inside the candidate triangle or on its boundary.  JS skips the
neighbours by reference comparison; vertices are compared by value here,
which agrees on pairwise-distinct rings. -/
def reflexBlocks (trig : Polygon) (prevV nextV : Vector3) :
    List Vector3 → Except Unit Bool
  | [] => .ok false
  | r :: rest =>
    if r = prevV ∨ r = nextV then reflexBlocks trig prevV nextV rest
    else
      match trig.contains r precision with
      | .error e => .error e
      | .ok true => .ok true
      | .ok false =>
        match trig.hasEdgeContaining r with
        | .error e => .error e
        | .ok true => .ok true
        | .ok false => reflexBlocks trig prevV nextV rest

/-- One candidate ear at convex-ring position `idx` (wraparound): the
candidate triangle is `(main, main.next, main.prev)` and is given the
ORIGINAL polygon's plane, exactly as in the source. -/
def earTry (orig : Plane) (poly : Polygon) (idx : ℕ) :
    Except Unit (Option (Polygon × Vector3)) :=
  let cand := ringGet poly.convexVertices idx
  match poly.nodeFor cand with
  | none => .error ()
  | some j =>
    let n := poly.vertices.length
    let main := ringGet poly.vertices j
    let nextV := ringGet poly.vertices (j + 1)
    let prevV := ringGet poly.vertices (j + n - 1)
    let trig : Polygon := ⟨[main, nextV, prevV], orig⟩
    match reflexBlocks trig prevV nextV poly.reflexVertices with
    | .error e => .error e
    | .ok true => .ok none
    | .ok false => .ok (some (trig, main))

/-- One full scan of the convex ring starting at the random offset, stopping
at the first accepted candidate. -/
def earScan (orig : Plane) (poly : Polygon) (offset : ℕ) :
    List ℕ → Except Unit (Option (Polygon × Vector3))
  | [] => .ok none
  | i :: rest =>
    match earTry orig poly (offset + i) with
    | .error e => .error e
    | .ok (some res) => .ok (some res)
    | .ok none => earScan orig poly offset rest

/-- The ear-clipping loop.  The per-iteration `Math.random()` draw is an
oracle giving iteration `k`'s offset; wraparound indexing makes any natural
offset equivalent to the JS `floor(random * length)` draw.  A scan with no
accepted candidate is the source's thrown invariant error; fuel only runs
out below `vertices.length` iterations, which `removeVertex` (removing at
least one vertex per accepted ear) makes unreachable from a fuel of
`vertices.length`. -/
def earClip (orig : Plane) (oracle : ℕ → ℕ) :
    ℕ → ℕ → Polygon → Except Unit (List Polygon)
  | 0, _, _ => .error ()
  | fuel + 1, k, poly =>
    if poly.vertices.length = 3 then .ok [poly]
    else
      match earScan orig poly (oracle k) (List.range poly.convexVertices.length) with
      | .error e => .error e
      | .ok none => .error ()
      | .ok (some (trig, main)) =>
        match earClip orig oracle fuel (k + 1) (poly.removeVertex main) with
        | .error e => .error e
        | .ok rest => .ok (trig :: rest)

/-- `Polygon.triangulateByEarClipping` = `Polygon.toTriangles` (the
memoization cache is irrelevant to the value computed). -/
def Polygon.toTriangles (P : Polygon) (oracle : ℕ → ℕ) : Except Unit (List Polygon) :=
  earClip P.plane oracle P.vertices.length 0 P

/-- A triangle in the plane `z = 1`, used to exercise `Polygon.scale`. -/
def scaleDemo : Polygon :=
  ⟨[⟨0, 0, 1⟩, ⟨1, 0, 1⟩, ⟨0, 1, 1⟩], ⟨⟨0, 0, 1⟩, ⟨0, 0, 1⟩⟩⟩

/-- An axis-aligned square in the plane `z = 0`. -/
def sqPoly : Polygon :=
  ⟨[⟨0, 0, 0⟩, ⟨4, 0, 0⟩, ⟨4, 4, 0⟩, ⟨0, 4, 0⟩], ⟨⟨0, 0, 0⟩, ⟨0, 0, 1⟩⟩⟩

/-- A simple non-convex quadrilateral (a dart) in `z = 0`, counterclockwise
with respect to the normal `(0,0,1)`; the vertex `(1,1,0)` is reflex.  Its
fan triangles from `(4,0,0)` are clockwise, which trips the one-sided
collinearity test in `trianglesForSurfaceIntegral`. -/
def dartPoly : Polygon :=
  ⟨[⟨4, 0, 0⟩, ⟨1, 1, 0⟩, ⟨0, 4, 0⟩, ⟨0, 0, 0⟩], ⟨⟨0, 0, 0⟩, ⟨0, 0, 1⟩⟩⟩

/-- A degenerate polygon with a zero-length first edge (two exactly equal
adjacent vertices), in the plane `z = 0`. -/
def dupPoly : Polygon :=
  ⟨[⟨0, 0, 0⟩, ⟨0, 0, 0⟩, ⟨1, 0, 0⟩, ⟨1, 1, 0⟩], ⟨⟨0, 0, 0⟩, ⟨0, 0, 1⟩⟩⟩

/-- A degenerate collinear "triangle" on the x-axis (its winding
accumulation from the origin is identically zero). -/
def colPoly : Polygon :=
  ⟨[⟨1, 0, 0⟩, ⟨2, 0, 0⟩, ⟨3, 0, 0⟩], ⟨⟨0, 0, 0⟩, ⟨0, 0, 1⟩⟩⟩

/-- The x-axis as a `Line`. -/
def lineX : Line := ⟨⟨0, 0, 0⟩, ⟨1, 0, 0⟩⟩

/-- A distinct line parallel to the x-axis through `(0,1,0)`. -/
def lineXoff : Line := ⟨⟨0, 1, 0⟩, ⟨1, 0, 0⟩⟩

/-- A point lying exactly on the closed segment from `a` to `b`. -/
def onEdge (a b q : Vector3) : Prop :=
  ∃ t : ℝ, 0 ≤ t ∧ t ≤ 1 ∧
    q = ⟨a.x + t * (b.x - a.x), a.y + t * (b.y - a.y), a.z + t * (b.z - a.z)⟩

/-- No boundary edge of the polygon is zero-length (adjacent ring vertices
are pairwise distinct), so no per-edge `Segment` constructor can throw. -/
def Polygon.edgesNondegenerate (P : Polygon) : Prop :=
  ∀ e ∈ P.edges, e.1 ≠ e.2

/-- `Segment.contains` expressed on the two endpoints alone (it never reads
the underlying line), stated for reuse across edge lemmas. -/
def segPointOn (a b q : Vector3) : Prop :=
  a.eql q precision ∨
    ((a.subtract q).isAntiparallelTo (b.subtract a) precision ∧
      (a.subtract q).modulus ≤ (b.subtract a).modulus)

/-- C1: the claim says `scale(k, c)` rebuilds the plane from the first
TRANSFORMED vertex; the code instead anchors it at the original first vertex.
Scaling the demo triangle (plane `z = 1`) by `k = 2` about the origin sends
every vertex to `z = 2`, yet the produced plane is still anchored at
`(0,0,1)` with normal `(0,0,1)`, so the scaled polygon's own first vertex
`(0,0,2)` does not lie on the plane the code attaches to it. -/
theorem scale_plane_anchored_at_untransformed_first_vertex :
    (scaleDemo.scale 2 ⟨0, 0, 0⟩).plane.anchor = ⟨0, 0, 1⟩ ∧
    (scaleDemo.scale 2 ⟨0, 0, 0⟩).vertices.headD ⟨0, 0, 0⟩ = ⟨0, 0, 2⟩ ∧
    ¬ (scaleDemo.scale 2 ⟨0, 0, 0⟩).plane.contains ⟨0, 0, 2⟩ precision := by
  refine ⟨rfl, by norm_num [Polygon.scale, scaleDemo], ?_⟩
  simp only [Polygon.scale, scaleDemo, Plane.contains, Vector3.dot, Vector3.subtract,
    precision, List.headD]
  norm_num

/-! ### Numeric evaluation helpers -/

theorem precision_pos : (0 : ℝ) < precision := by norm_num [precision]

theorem precision_le_pi : precision ≤ π := by
  have h3 := Real.pi_gt_three
  norm_num [precision]
  linarith

theorem prec_lt_pi_div_two : precision < π / 2 := by
  have h3 := Real.pi_gt_three
  norm_num [precision]
  linarith

theorem sqrt_eval {a b : ℝ} (hb : 0 ≤ b) (h : b * b = a) : Real.sqrt a = b := by
  rw [← h, Real.sqrt_mul_self hb]

theorem modulus_eval {a b c v : ℝ} (hv : 0 ≤ v) (h : v * v = a * a + b * b + c * c) :
    Vector3.modulus ⟨a, b, c⟩ = v :=
  sqrt_eval hv h

theorem modulus_eq_zero {v : Vector3} (hx : v.x = 0) (hy : v.y = 0) (hz : v.z = 0) :
    v.modulus = 0 := by
  simp [Vector3.modulus, hx, hy, hz]

theorem modulus_ne_zero_iff (v : Vector3) :
    v.modulus ≠ 0 ↔ ¬(v.x = 0 ∧ v.y = 0 ∧ v.z = 0) := by
  unfold Vector3.modulus
  rw [ne_eq, Real.sqrt_eq_zero']
  constructor
  · intro h hc
    exact h (by nlinarith [hc.1, hc.2.1, hc.2.2])
  · intro h hle
    exact h ⟨by nlinarith [mul_self_nonneg v.x, mul_self_nonneg v.y, mul_self_nonneg v.z],
      by nlinarith [mul_self_nonneg v.x, mul_self_nonneg v.y, mul_self_nonneg v.z],
      by nlinarith [mul_self_nonneg v.x, mul_self_nonneg v.y, mul_self_nonneg v.z]⟩

theorem angleFrom_eval {A B : Vector3} {mA mB : ℝ} (hA : A.modulus = mA)
    (hB : B.modulus = mB) (hA0 : mA ≠ 0) (hB0 : mB ≠ 0) :
    A.angleFrom B = some (Real.arccos (A.dot B / (mA * mB))) := by
  unfold Vector3.angleFrom
  rw [hA, hB]
  simp [hA0, hB0]

theorem prec_lt_arccos {r : ℝ} (hr1 : -1 ≤ r) (h1 : r ≤ 24 / 25) :
    precision < Real.arccos r := by
  have hr2 : r ≤ 1 := by linarith
  by_contra hle
  push_neg at hle
  have h2 : Real.cos precision ≤ Real.cos (Real.arccos r) :=
    Real.cos_le_cos_of_nonneg_of_le_pi (Real.arccos_nonneg r) precision_le_pi hle
  rw [Real.cos_arccos hr1 hr2] at h2
  have h4 : 1 - precision ^ 2 / 2 ≤ Real.cos precision := Real.one_sub_sq_div_two_le_cos
  have h5 : (24 : ℝ) / 25 < 1 - precision ^ 2 / 2 := by norm_num [precision]
  linarith

theorem arccos_window {r : ℝ} (h0 : -(24 / 25) ≤ r) (h1 : r ≤ 24 / 25) :
    precision < Real.arccos r ∧ Real.arccos r < π - precision := by
  refine ⟨prec_lt_arccos (by linarith) h1, ?_⟩
  have hneg : Real.arccos (-r) = π - Real.arccos r := Real.arccos_neg r
  have h2 : precision < Real.arccos (-r) := prec_lt_arccos (by linarith) (by linarith)
  linarith

theorem findIdxFrom_eq_none {p : Vector3 → Prop} {l : List Vector3}
    (h : ∀ w ∈ l, ¬ p w) : findIdxFrom p l = none := by
  induction l with
  | nil => rfl
  | cons a rest ih =>
    unfold findIdxFrom
    rw [if_neg (h a (List.mem_cons_self a rest)), ih fun w hw => h w (List.mem_cons_of_mem a hw)]
    rfl

theorem eql_refl (v : Vector3) : v.eql v precision := by
  refine ⟨?_, ?_, ?_⟩ <;> norm_num [precision]

theorem eql_symm {a b : Vector3} {e : ℝ} (h : a.eql b e) : b.eql a e := by
  obtain ⟨h1, h2, h3⟩ := h
  exact ⟨by rwa [abs_sub_comm], by rwa [abs_sub_comm], by rwa [abs_sub_comm]⟩

/-! ### C7: classifying a vertex that is not in the polygon -/

/-- C7: for every vertex `v` and polygon `P` such that no ring vertex equals
`v` within the default precision, `isConvex` raises the invalid-operation
error (it returns the error value rather than a classification; in the
source the throw propagates immediately to the caller). -/
theorem isConvex_error_of_absent (v : Vector3) (P : Polygon)
    (h : ∀ w ∈ P.vertices, ¬ w.eql v precision) :
    Vertex.isConvex v P = .error () := by
  have hn : P.nodeFor v = none := findIdxFrom_eq_none h
  unfold Vertex.isConvex
  rw [hn]

/-- C7 witness: `(9,9,9)` is not a vertex of the demo square, and its
classification errors out. -/
theorem isConvex_error_of_absent_witness :
    Vertex.isConvex ⟨9, 9, 9⟩ sqPoly = .error () := by
  apply isConvex_error_of_absent
  intro w hw
  simp only [sqPoly, List.mem_cons, List.not_mem_nil, or_false] at hw
  rcases hw with rfl | rfl | rfl | rfl <;> norm_num [Vector3.eql, precision]

/-! ### C8: parallel, non-colinear lines -/

/-- C8: two parallel (at the default precision), non-colinear lines have
`intersects = false` and `intersectionWith = null`; the absent result is the
explicit `none` value, not a raised error. -/
theorem parallel_lines_no_intersection (L M : Line)
    (hp : L.isParallelToLine M precision)
    (hnc : ¬ L.containsPoint M.anchor precision) :
    ¬ L.intersectsLine M precision ∧ L.intersectionWithLine M = none := by
  have hni : ¬ L.intersectsLine M precision := fun hcon => hcon.1 hp
  refine ⟨hni, ?_⟩
  unfold Line.intersectionWithLine
  rw [if_pos hni]

/-- C8 witness: the x-axis and its translate through `(0,1,0)`. -/
theorem parallel_lines_no_intersection_witness :
    ¬ lineX.intersectsLine lineXoff precision ∧
      lineX.intersectionWithLine lineXoff = none := by
  have hm : Vector3.modulus ⟨1, 0, 0⟩ = 1 := modulus_eval (by norm_num) (by norm_num)
  apply parallel_lines_no_intersection
  · unfold Line.isParallelToLine lineX lineXoff
    rw [angleFrom_eval hm hm one_ne_zero one_ne_zero]
    have : Vector3.dot ⟨1, 0, 0⟩ ⟨1, 0, 0⟩ / (1 * 1) = 1 := by
      norm_num [Vector3.dot]
    rw [this, Real.arccos_one]
    left
    norm_num [precision_pos.le]
  · unfold Line.containsPoint Line.distanceFromPoint lineX lineXoff
    simp only []
    norm_num [Real.sqrt_one, precision]

/-! ### C9: zero-length segments cannot be constructed -/

/-- C9: constructing a `Segment` whose two endpoints are the same point
raises the degenerate-input (dimensionality) error, because the underlying
`Line` receives the zero direction `end - start`; consequently every
successfully constructed segment has nonzero length. -/
theorem segment_make_zero_length :
    (∀ p : Vector3, Segment.make p p = .error ()) ∧
      ∀ (s e : Vector3) (sg : Segment), Segment.make s e = .ok sg → sg.length ≠ 0 := by
  constructor
  · intro p
    unfold Segment.make Line.make
    rw [if_pos (modulus_eq_zero (by simp [Vector3.subtract]) (by simp [Vector3.subtract])
      (by simp [Vector3.subtract]))]
    rfl
  · intro s e sg h
    unfold Segment.make Line.make at h
    by_cases hz : (e.subtract s).modulus = 0
    · rw [if_pos hz] at h
      cases h
    · rw [if_neg hz] at h
      simp only [Except.map] at h
      cases h
      intro hlen
      exact hz (by simpa [Segment.length, Vector3.modulus, Vector3.subtract] using hlen)

/-- C9 witness: the diagonal instantiation errors, and a concrete successful
construction has nonzero length. -/
theorem segment_make_zero_length_witness :
    Segment.make ⟨0, 0, 0⟩ ⟨0, 0, 0⟩ = .error () ∧
      Segment.length ⟨⟨⟨0, 0, 0⟩, ⟨1, 0, 0⟩⟩, ⟨0, 0, 0⟩, ⟨1, 0, 0⟩⟩ ≠ 0 := by
  have hmk : Segment.make ⟨0, 0, 0⟩ ⟨1, 0, 0⟩ =
      .ok ⟨⟨⟨0, 0, 0⟩, ⟨1, 0, 0⟩⟩, ⟨0, 0, 0⟩, ⟨1, 0, 0⟩⟩ := by
    have hm : Vector3.modulus ⟨1, 0, 0⟩ = 1 := modulus_eval (by norm_num) (by norm_num)
    unfold Segment.make Line.make
    have hsub : Vector3.subtract ⟨1, 0, 0⟩ ⟨0, 0, 0⟩ = ⟨1, 0, 0⟩ := by
      simp [Vector3.subtract]
    rw [hsub, hm, if_neg one_ne_zero]
    simp [Except.map]
  exact ⟨segment_make_zero_length.1 ⟨0, 0, 0⟩,
    segment_make_zero_length.2 ⟨0, 0, 0⟩ ⟨1, 0, 0⟩ _ hmk⟩

/-! ### C6: convexity classification at a ring vertex -/

/-- C6: for a vertex `v` found in the ring at index `i`, with
`A = next - v`, `B = prev - v` and `θ` the angle between them: `θ ≤ ε`
classifies convex, else `|θ - π| ≤ ε` classifies reflex, and otherwise the
vertex is convex iff `(A × B) · normal > 0`; moreover `isReflex` is always
the boolean negation of `isConvex` (errors rethrown unchanged). -/
theorem isConvex_classification (v : Vector3) (P : Polygon) (i : ℕ) (θ : ℝ)
    (hi : P.nodeFor v = some i)
    (hθ : Vector3.angleFrom ((ringGet P.vertices (i + 1)).subtract v)
        ((ringGet P.vertices (i + P.vertices.length - 1)).subtract v) = some θ) :
    (θ ≤ precision → Vertex.isConvex v P = .ok true) ∧
    (precision < θ → |θ - π| ≤ precision → Vertex.isConvex v P = .ok false) ∧
    (precision < θ → precision < |θ - π| →
      Vertex.isConvex v P = .ok (decide (0 <
        Vector3.dot (Vector3.cross ((ringGet P.vertices (i + 1)).subtract v)
          ((ringGet P.vertices (i + P.vertices.length - 1)).subtract v))
          P.plane.normal))) ∧
    Vertex.isReflex v P = Except.map (fun b => !b) (Vertex.isConvex v P) := by
  have hbody : Vertex.isConvex v P =
      (if θ ≤ precision then Except.ok true
       else if |θ - π| ≤ precision then Except.ok false
       else Except.ok (decide (0 <
         Vector3.dot (Vector3.cross ((ringGet P.vertices (i + 1)).subtract v)
           ((ringGet P.vertices (i + P.vertices.length - 1)).subtract v))
           P.plane.normal))) := by
    simp only [Vertex.isConvex, hi, hθ]
  refine ⟨?_, ?_, ?_, rfl⟩
  · intro h
    rw [hbody, if_pos h]
  · intro h1 h2
    rw [hbody, if_neg (not_le.mpr h1), if_pos h2]
  · intro h1 h2
    rw [hbody, if_neg (not_le.mpr h1), if_neg (not_le.mpr h2)]

/-- C6 witness: the square corner `(0,0,0)` has `θ = π/2` and positive sign
test, hence is convex and not reflex. -/
theorem isConvex_classification_witness :
    Vertex.isConvex ⟨0, 0, 0⟩ sqPoly = .ok true ∧
      Vertex.isReflex ⟨0, 0, 0⟩ sqPoly = .ok false := by
  have hi : sqPoly.nodeFor ⟨0, 0, 0⟩ = some 0 := by
    have h := eql_refl (⟨0, 0, 0⟩ : Vector3)
    simp [Polygon.nodeFor, sqPoly, findIdxFrom, h]
  have hA : (ringGet sqPoly.vertices (0 + 1)).subtract ⟨0, 0, 0⟩ = ⟨4, 0, 0⟩ := by
    norm_num [ringGet, sqPoly, Vector3.subtract]
  have hB : (ringGet sqPoly.vertices (0 + sqPoly.vertices.length - 1)).subtract ⟨0, 0, 0⟩ =
      ⟨0, 4, 0⟩ := by
    norm_num [ringGet, sqPoly, Vector3.subtract]
  have hm4 : Vector3.modulus ⟨4, 0, 0⟩ = 4 := modulus_eval (by norm_num) (by norm_num)
  have hm4' : Vector3.modulus ⟨0, 4, 0⟩ = 4 := modulus_eval (by norm_num) (by norm_num)
  have hθ : Vector3.angleFrom ((ringGet sqPoly.vertices (0 + 1)).subtract ⟨0, 0, 0⟩)
      ((ringGet sqPoly.vertices (0 + sqPoly.vertices.length - 1)).subtract ⟨0, 0, 0⟩) =
      some (π / 2) := by
    rw [hA, hB, angleFrom_eval hm4 hm4' (by norm_num) (by norm_num)]
    norm_num [Vector3.dot, Real.arccos_zero]
  obtain ⟨-, -, h3, h4⟩ := isConvex_classification ⟨0, 0, 0⟩ sqPoly 0 (π / 2) hi hθ
  have habs : precision < |π / 2 - π| := by
    rw [abs_of_nonpos (by linarith [Real.pi_pos])]
    have := prec_lt_pi_div_two
    linarith
  have hc := h3 prec_lt_pi_div_two habs
  rw [hA, hB] at hc
  have hcross : Vector3.dot (Vector3.cross ⟨4, 0, 0⟩ ⟨0, 4, 0⟩) sqPoly.plane.normal = 16 := by
    norm_num [Vector3.cross, Vector3.dot, sqPoly]
  rw [hcross] at hc
  have hdec : decide ((0 : ℝ) < 16) = true := by
    rw [decide_eq_true_eq]
    norm_num
  rw [hdec] at hc
  refine ⟨hc, ?_⟩
  rw [h4, hc]
  rfl

/-! ### C10: the caller epsilon never reaches the boundary-edge test -/

/-- C10: `hasEdgeContaining` takes no epsilon (each per-edge segment test
uses the global default precision), so the caller-supplied epsilon enters
`contains` only through the plane-membership test and the winding
accumulation: whenever those two agree for `e1` and `e2`, the result
agrees. -/
theorem contains_epsilon_only_plane_and_winding (P : Polygon) (q : Vector3) (e1 e2 : ℝ)
    (hplane : P.plane.contains q e1 ↔ P.plane.contains q e2)
    (hwind : P.winding q e1 = P.winding q e2) :
    P.contains q e1 = P.contains q e2 := by
  unfold Polygon.contains Polygon.containsByWindingNumber
  by_cases h1 : P.plane.contains q e1
  · rw [if_neg (not_not_intro h1), if_neg (not_not_intro (hplane.mp h1)), hwind]
  · rw [if_pos h1, if_pos fun hc => h1 (hplane.mpr hc)]

theorem colPoly_winding (e : ℝ) : colPoly.winding ⟨0, 0, 0⟩ e = (0, 0) := by
  have hm1 : Vector3.modulus ⟨1, 0, 0⟩ = 1 := modulus_eval (by norm_num) (by norm_num)
  have hm2 : Vector3.modulus ⟨2, 0, 0⟩ = 2 := modulus_eval (by norm_num) (by norm_num)
  have hm3 : Vector3.modulus ⟨3, 0, 0⟩ = 3 := modulus_eval (by norm_num) (by norm_num)
  have h12 : Vector3.angleFrom ⟨1, 0, 0⟩ ⟨2, 0, 0⟩ = some 0 := by
    rw [angleFrom_eval hm1 hm2 one_ne_zero two_ne_zero]
    norm_num [Vector3.dot]
  have h23 : Vector3.angleFrom ⟨2, 0, 0⟩ ⟨3, 0, 0⟩ = some 0 := by
    rw [angleFrom_eval hm2 hm3 two_ne_zero three_ne_zero]
    norm_num [Vector3.dot]
  have h31 : Vector3.angleFrom ⟨3, 0, 0⟩ ⟨1, 0, 0⟩ = some 0 := by
    rw [angleFrom_eval hm3 hm1 three_ne_zero one_ne_zero]
    norm_num [Vector3.dot]
  unfold Polygon.winding Polygon.edges colPoly
  norm_num [List.rotate, windingStep, h12, h23, h31]

/-- C10 witness: on the collinear demo polygon and the origin, the plane
test agrees and the winding state agrees between `1/100` and `1/50`, so
`contains` agrees (per-edge boundary behavior contributed no epsilon
dependence). -/
theorem contains_epsilon_only_plane_and_winding_witness :
    colPoly.contains ⟨0, 0, 0⟩ (1 / 100) = colPoly.contains ⟨0, 0, 0⟩ (1 / 50) := by
  apply contains_epsilon_only_plane_and_winding
  · constructor <;> intro <;>
      norm_num [Plane.contains, colPoly, Vector3.dot, Vector3.subtract]
  · rw [colPoly_winding, colPoly_winding]

/-! ### C4: boundary points and the containment test -/

theorem vec_eq_of_components {a b : Vector3} (hx : a.x = b.x) (hy : a.y = b.y)
    (hz : a.z = b.z) : a = b := by
  cases a
  cases b
  simp_all

theorem segContains_iff (L : Line) (a b q : Vector3) :
    Segment.containsPoint ⟨L, a, b⟩ q ↔ segPointOn a b q :=
  Iff.rfl

theorem modulus_pos_of_ne {a b : Vector3} (hab : a ≠ b) : 0 < (b.subtract a).modulus := by
  rcases lt_or_eq_of_le (Real.sqrt_nonneg ((b.subtract a).x * (b.subtract a).x +
      (b.subtract a).y * (b.subtract a).y + (b.subtract a).z * (b.subtract a).z)) with h | h
  · exact h
  · exfalso
    have hz := (modulus_ne_zero_iff (b.subtract a)).mpr ?_
    · exact hz h.symm
    · intro hc
      exact hab (vec_eq_of_components (by have := hc.1; simp [Vector3.subtract] at this; linarith)
        (by have := hc.2.1; simp [Vector3.subtract] at this; linarith)
        (by have := hc.2.2; simp [Vector3.subtract] at this; linarith)).symm

/-- A point exactly on a nondegenerate closed edge passes the source's
segment containment test (with the default precision). -/
theorem segPointOn_of_onEdge {a b q : Vector3} (hab : a ≠ b) (h : onEdge a b q) :
    segPointOn a b q := by
  obtain ⟨t, ht0, ht1, hq⟩ := h
  by_cases h0 : a.eql q precision
  · exact Or.inl h0
  refine Or.inr ?_
  subst hq
  have ht : 0 < t := by
    rcases lt_or_eq_of_le ht0 with h' | h'
    · exact h'
    · exfalso
      apply h0
      refine ⟨?_, ?_, ?_⟩ <;> rw [← h'] <;> norm_num [precision]
  have hV : a.subtract ⟨a.x + t * (b.x - a.x), a.y + t * (b.y - a.y),
      a.z + t * (b.z - a.z)⟩ =
      ⟨-(t * (b.x - a.x)), -(t * (b.y - a.y)), -(t * (b.z - a.z))⟩ := by
    simp only [Vector3.subtract, Vector3.mk.injEq]
    refine ⟨by ring, by ring, by ring⟩
  set wx := b.x - a.x with hwx
  set wy := b.y - a.y with hwy
  set wz := b.z - a.z with hwz
  have hw : b.subtract a = ⟨wx, wy, wz⟩ := by
    simp [Vector3.subtract, hwx, hwy, hwz]
  have hmw : (0 : ℝ) < Real.sqrt (wx * wx + wy * wy + wz * wz) := by
    have := modulus_pos_of_ne hab
    rwa [hw] at this
  set mw := Real.sqrt (wx * wx + wy * wy + wz * wz) with hmwdef
  have hsum : (0 : ℝ) ≤ wx * wx + wy * wy + wz * wz := by
    nlinarith [mul_self_nonneg wx, mul_self_nonneg wy, mul_self_nonneg wz]
  have hmw2 : mw * mw = wx * wx + wy * wy + wz * wz := Real.mul_self_sqrt hsum
  have hmodV : Vector3.modulus ⟨-(t * wx), -(t * wy), -(t * wz)⟩ = t * mw := by
    unfold Vector3.modulus
    rw [show -(t * wx) * -(t * wx) + -(t * wy) * -(t * wy) + -(t * wz) * -(t * wz) =
        t * t * (wx * wx + wy * wy + wz * wz) from by ring,
      Real.sqrt_mul (mul_self_nonneg t), Real.sqrt_mul_self ht0, hmwdef]
  have hmodw : Vector3.modulus ⟨wx, wy, wz⟩ = mw := by
    rw [hmwdef]
    rfl
  have hdot : Vector3.dot ⟨-(t * wx), -(t * wy), -(t * wz)⟩ ⟨wx, wy, wz⟩ =
      -t * (mw * mw) := by
    rw [hmw2]
    simp only [Vector3.dot]
    ring
  have hratio : -t * (mw * mw) / (t * mw * mw) = -1 := by
    field_simp
    ring
  have hang : Vector3.angleFrom ⟨-(t * wx), -(t * wy), -(t * wz)⟩ ⟨wx, wy, wz⟩ =
      some π := by
    rw [angleFrom_eval hmodV hmodw (mul_pos ht hmw).ne' hmw.ne']
    rw [hdot, hratio, Real.arccos_neg_one]
  rw [hV, hw]
  constructor
  · exact ⟨π, hang, by simp [precision_pos.le]⟩
  · rw [hmodV, hmodw]
    nlinarith

theorem edgeContains_ok {a b : Vector3} (hab : a ≠ b) (q : Vector3) :
    edgeContains a b q = .ok (decide (segPointOn a b q)) := by
  unfold edgeContains Segment.make Line.make
  have hm : (b.subtract a).modulus ≠ 0 := ne_of_gt (modulus_pos_of_ne hab)
  rw [if_neg hm]
  simp only [Except.map]
  congr 1

theorem hasEdgeAux_ok_true {q : Vector3} : ∀ {l : List (Vector3 × Vector3)},
    (∀ e ∈ l, e.1 ≠ e.2) →
    (∃ e ∈ l, segPointOn e.1 e.2 q) →
    hasEdgeAux q l = .ok true := by
  intro l
  induction l with
  | nil =>
    intro _ hex
    obtain ⟨e, he, -⟩ := hex
    cases he
  | cons e rest ih =>
    intro hnd hex
    obtain ⟨a, b⟩ := e
    have hab : a ≠ b := hnd (a, b) (List.mem_cons_self _ _)
    show hasEdgeAux q ((a, b) :: rest) = .ok true
    unfold hasEdgeAux
    rw [edgeContains_ok hab q]
    by_cases hp : segPointOn a b q
    · rw [decide_eq_true hp]
    · rw [decide_eq_false hp]
      refine ih (fun d hd => hnd d (List.mem_cons_of_mem _ hd)) ?_
      obtain ⟨d, hd, hdp⟩ := hex
      rcases List.mem_cons.mp hd with rfl | hdr
      · exact absurd hdp hp
      · exact ⟨d, hdr, hdp⟩

theorem exists_edge_from_vertex {P : Polygon} {q : Vector3} (hq : q ∈ P.vertices) :
    ∃ e ∈ P.edges, e.1 = q := by
  obtain ⟨i, hi, hq'⟩ := List.mem_iff_getElem.mp hq
  have hrl : (P.vertices.rotate 1).length = P.vertices.length := List.length_rotate _ _
  have hlen : P.edges.length = P.vertices.length := by
    simp [Polygon.edges]
  have hidx : i < P.edges.length := by
    rw [hlen]
    exact hi
  have hir : i < (P.vertices.rotate 1).length := by omega
  refine ⟨P.edges[i], List.getElem_mem hidx, ?_⟩
  have hzip : P.edges[i] = (P.vertices[i], (P.vertices.rotate 1)[i]) := by
    unfold Polygon.edges at hidx ⊢
    exact List.getElem_zip
  rw [hzip]
  exact hq'

/-- C4 (amended): provided the polygon has no zero-length boundary edge,
`contains` returns `ok false` for every point failing the plane test at the
caller's epsilon, for every point lying exactly on a boundary edge, and in
particular for every vertex.  (The original unrestricted claim fails: with a
zero-length edge the per-edge `Segment` constructor throws instead, see the
counterexample.) -/
theorem contains_false_on_boundary (P : Polygon) (q : Vector3) (eps : ℝ) :
    (¬ P.plane.contains q eps → P.contains q eps = .ok false) ∧
    (P.edgesNondegenerate →
      ((∃ e ∈ P.edges, onEdge e.1 e.2 q) ∨ q ∈ P.vertices) →
      P.contains q eps = .ok false) := by
  constructor
  · intro hpl
    unfold Polygon.contains Polygon.containsByWindingNumber
    rw [if_pos hpl]
  · intro hnd hsrc
    by_cases hpl : P.plane.contains q eps
    · have hhe : P.hasEdgeContaining q = .ok true := by
        unfold Polygon.hasEdgeContaining
        apply hasEdgeAux_ok_true hnd
        rcases hsrc with ⟨e, he, hone⟩ | hq
        · exact ⟨e, he, segPointOn_of_onEdge (hnd e he) hone⟩
        · obtain ⟨e, he, h1⟩ := exists_edge_from_vertex hq
          refine ⟨e, he, Or.inl ?_⟩
          rw [h1]
          exact eql_refl q
      unfold Polygon.contains Polygon.containsByWindingNumber
      rw [if_neg (not_not_intro hpl), hhe]
    · unfold Polygon.contains Polygon.containsByWindingNumber
      rw [if_pos hpl]

/-- C4 witness for the amended claim: on the square, the off-plane point
`(5,5,5)` and the vertex `(0,0,0)` both yield `ok false`. -/
theorem contains_false_on_boundary_witness :
    sqPoly.contains ⟨5, 5, 5⟩ precision = .ok false ∧
      sqPoly.contains ⟨0, 0, 0⟩ precision = .ok false := by
  constructor
  · refine (contains_false_on_boundary sqPoly ⟨5, 5, 5⟩ precision).1 ?_
    norm_num [Plane.contains, sqPoly, Vector3.dot, Vector3.subtract, precision]
  · refine (contains_false_on_boundary sqPoly ⟨0, 0, 0⟩ precision).2 ?_
      (Or.inr (by simp [sqPoly]))
    intro e he
    have hedges : sqPoly.edges =
        [(⟨0, 0, 0⟩, ⟨4, 0, 0⟩), (⟨4, 0, 0⟩, ⟨4, 4, 0⟩),
         (⟨4, 4, 0⟩, ⟨0, 4, 0⟩), (⟨0, 4, 0⟩, ⟨0, 0, 0⟩)] := by
      simp [Polygon.edges, sqPoly, List.rotate]
    rw [hedges] at he
    simp only [List.mem_cons, List.not_mem_nil, or_false] at he
    rcases he with rfl | rfl | rfl | rfl <;>
      · intro hc
        rw [Vector3.mk.injEq] at hc
        norm_num at hc

/-- C4 counterexample to the unrestricted claim: on a polygon with a
zero-length first edge, querying a genuine vertex makes `contains` throw the
dimensionality error from the per-edge `Segment` constructor instead of
returning false. -/
theorem contains_error_on_degenerate_edge :
    ⟨1, 0, 0⟩ ∈ dupPoly.vertices ∧
      dupPoly.contains ⟨1, 0, 0⟩ precision = .error () := by
  constructor
  · simp [dupPoly]
  · unfold Polygon.contains Polygon.containsByWindingNumber
    rw [if_neg (not_not_intro (show dupPoly.plane.contains ⟨1, 0, 0⟩ precision by
      norm_num [Plane.contains, dupPoly, Vector3.dot, Vector3.subtract, precision]))]
    have hedge : dupPoly.hasEdgeContaining ⟨1, 0, 0⟩ = .error () := by
      have hedges : dupPoly.edges =
          [(⟨0, 0, 0⟩, ⟨0, 0, 0⟩), (⟨0, 0, 0⟩, ⟨1, 0, 0⟩),
           (⟨1, 0, 0⟩, ⟨1, 1, 0⟩), (⟨1, 1, 0⟩, ⟨0, 0, 0⟩)] := by
        simp [Polygon.edges, dupPoly, List.rotate]
      unfold Polygon.hasEdgeContaining
      rw [hedges]
      unfold hasEdgeAux edgeContains Segment.make Line.make
      rw [if_pos (modulus_eq_zero (by simp [Vector3.subtract]) (by simp [Vector3.subtract])
        (by simp [Vector3.subtract]))]
      rfl
    rw [hedge]

/-! ### C5: the one-sided collinearity test in the surface-integral fan -/

theorem dart_fan :
    dartPoly.trianglesForSurfaceIntegral =
      [⟨[⟨4, 0, 0⟩, ⟨1, 1, 0⟩, ⟨0, 4, 0⟩], dartPoly.plane⟩,
       ⟨[⟨4, 0, 0⟩, ⟨0, 4, 0⟩, ⟨0, 0, 0⟩], dartPoly.plane⟩] := by
  have hr : (List.range dartPoly.vertices.length).drop 2 = [2, 3] := rfl
  unfold Polygon.trianglesForSurfaceIntegral
  rw [hr]
  simp only [List.map]
  norm_num [ringGet, dartPoly, precision]

/-- C5 (code bug): the fan triple `((4,0,0), (1,1,0), (0,4,0))` of the dart
is NOT collinear (nonzero 3D cross product of its edge vectors), yet the
one-sided collinearity test (`< precision` on the signed xy-projected cross
value, no `abs`) accepts this clockwise triple and hands the triangle the
parent polygon's plane where the claim (and the source's own comment)
require the plane fitted to the three points. -/
theorem fan_plane_despite_noncollinear :
    dartPoly.trianglesForSurfaceIntegral =
      [⟨[⟨4, 0, 0⟩, ⟨1, 1, 0⟩, ⟨0, 4, 0⟩], dartPoly.plane⟩,
       ⟨[⟨4, 0, 0⟩, ⟨0, 4, 0⟩, ⟨0, 0, 0⟩], dartPoly.plane⟩] ∧
    Vector3.cross (Vector3.subtract ⟨1, 1, 0⟩ ⟨4, 0, 0⟩)
      (Vector3.subtract ⟨0, 4, 0⟩ ⟨4, 0, 0⟩) ≠ ⟨0, 0, 0⟩ :=
  ⟨dart_fan, by norm_num [Vector3.cross, Vector3.subtract, Vector3.mk.injEq]⟩

/-! ### Classification of the dart's vertices -/

/-- Evaluation driver: when the corner angle is `arccos r` with `r` in the
window `[-24/25, 24/25]`, neither degenerate branch fires and `isConvex`
reduces to the sign test. -/
theorem isConvex_eval {v : Vector3} {P : Polygon} {i : ℕ} {r : ℝ}
    (hi : P.nodeFor v = some i)
    (hθ : Vector3.angleFrom ((ringGet P.vertices (i + 1)).subtract v)
        ((ringGet P.vertices (i + P.vertices.length - 1)).subtract v) =
      some (Real.arccos r))
    (h0 : -(24 / 25) ≤ r) (h1 : r ≤ 24 / 25) :
    Vertex.isConvex v P = .ok (decide (0 <
      Vector3.dot (Vector3.cross ((ringGet P.vertices (i + 1)).subtract v)
        ((ringGet P.vertices (i + P.vertices.length - 1)).subtract v))
        P.plane.normal)) := by
  obtain ⟨hw1, hw2⟩ := arccos_window h0 h1
  have habs : precision < |Real.arccos r - π| := by
    rw [abs_of_nonpos (by linarith [Real.arccos_le_pi r])]
    linarith
  exact (isConvex_classification v P i _ hi hθ).2.2.1 hw1 habs

theorem dart_nodeFor_0 : dartPoly.nodeFor ⟨4, 0, 0⟩ = some 0 := by
  norm_num [Polygon.nodeFor, dartPoly, findIdxFrom, Vector3.eql, precision]

theorem dart_nodeFor_1 : dartPoly.nodeFor ⟨1, 1, 0⟩ = some 1 := by
  norm_num [Polygon.nodeFor, dartPoly, findIdxFrom, Vector3.eql, precision]

theorem dart_nodeFor_2 : dartPoly.nodeFor ⟨0, 4, 0⟩ = some 2 := by
  norm_num [Polygon.nodeFor, dartPoly, findIdxFrom, Vector3.eql, precision]

theorem dart_nodeFor_3 : dartPoly.nodeFor ⟨0, 0, 0⟩ = some 3 := by
  norm_num [Polygon.nodeFor, dartPoly, findIdxFrom, Vector3.eql, precision]

theorem sqrt10_mul_self : Real.sqrt 10 * Real.sqrt 10 = 10 :=
  Real.mul_self_sqrt (by norm_num)

theorem sqrt10_pos : 0 < Real.sqrt 10 := Real.sqrt_pos.mpr (by norm_num)

theorem sqrt10_lower : (3 : ℝ) ≤ Real.sqrt 10 := by
  nlinarith [sqrt10_mul_self, sqrt10_pos]

theorem dart_r_bound : 12 / (Real.sqrt 10 * 4) ≤ 24 / 25 ∧
    12 / (4 * Real.sqrt 10) ≤ 24 / 25 := by
  have h1 : (0 : ℝ) < Real.sqrt 10 * 4 := by positivity
  constructor
  · rw [div_le_iff h1]
    nlinarith [sqrt10_mul_self, sqrt10_lower]
  · rw [mul_comm 4 (Real.sqrt 10), div_le_iff h1]
    nlinarith [sqrt10_mul_self, sqrt10_lower]

theorem dart_convexB_0 : dartPoly.isConvexB ⟨4, 0, 0⟩ = true := by
  have hA : (ringGet dartPoly.vertices (0 + 1)).subtract ⟨4, 0, 0⟩ = ⟨-3, 1, 0⟩ := by
    norm_num [ringGet, dartPoly, Vector3.subtract]
  have hB : (ringGet dartPoly.vertices
      (0 + dartPoly.vertices.length - 1)).subtract ⟨4, 0, 0⟩ = ⟨-4, 0, 0⟩ := by
    norm_num [ringGet, dartPoly, Vector3.subtract]
  have hmA : Vector3.modulus ⟨-3, 1, 0⟩ = Real.sqrt 10 := by
    unfold Vector3.modulus
    norm_num
  have hmB : Vector3.modulus ⟨-4, 0, 0⟩ = 4 := modulus_eval (by norm_num) (by norm_num)
  have hθ : Vector3.angleFrom ((ringGet dartPoly.vertices (0 + 1)).subtract ⟨4, 0, 0⟩)
      ((ringGet dartPoly.vertices (0 + dartPoly.vertices.length - 1)).subtract ⟨4, 0, 0⟩) =
      some (Real.arccos (12 / (Real.sqrt 10 * 4))) := by
    rw [hA, hB, angleFrom_eval hmA hmB sqrt10_pos.ne' (by norm_num)]
    norm_num [Vector3.dot]
  have hr0 : (0 : ℝ) ≤ 12 / (Real.sqrt 10 * 4) := by positivity
  have hc := isConvex_eval dart_nodeFor_0 hθ (by linarith) dart_r_bound.1
  rw [hA, hB] at hc
  unfold Polygon.isConvexB
  rw [hc, decide_eq_true (show (0 : ℝ) < Vector3.dot (Vector3.cross ⟨-3, 1, 0⟩ ⟨-4, 0, 0⟩)
    dartPoly.plane.normal from by norm_num [Vector3.cross, Vector3.dot, dartPoly])]

theorem dart_convexB_1 : dartPoly.isConvexB ⟨1, 1, 0⟩ = false := by
  have hA : (ringGet dartPoly.vertices (1 + 1)).subtract ⟨1, 1, 0⟩ = ⟨-1, 3, 0⟩ := by
    norm_num [ringGet, dartPoly, Vector3.subtract]
  have hB : (ringGet dartPoly.vertices
      (1 + dartPoly.vertices.length - 1)).subtract ⟨1, 1, 0⟩ = ⟨3, -1, 0⟩ := by
    norm_num [ringGet, dartPoly, Vector3.subtract]
  have hmA : Vector3.modulus ⟨-1, 3, 0⟩ = Real.sqrt 10 := by
    unfold Vector3.modulus
    norm_num
  have hmB : Vector3.modulus ⟨3, -1, 0⟩ = Real.sqrt 10 := by
    unfold Vector3.modulus
    norm_num
  have hθ : Vector3.angleFrom ((ringGet dartPoly.vertices (1 + 1)).subtract ⟨1, 1, 0⟩)
      ((ringGet dartPoly.vertices (1 + dartPoly.vertices.length - 1)).subtract ⟨1, 1, 0⟩) =
      some (Real.arccos (-(3 / 5))) := by
    rw [hA, hB, angleFrom_eval hmA hmB sqrt10_pos.ne' sqrt10_pos.ne', sqrt10_mul_self]
    norm_num [Vector3.dot]
  have hc := isConvex_eval dart_nodeFor_1 hθ (by norm_num) (by norm_num)
  rw [hA, hB] at hc
  unfold Polygon.isConvexB
  rw [hc, decide_eq_false (show ¬ (0 : ℝ) < Vector3.dot (Vector3.cross ⟨-1, 3, 0⟩ ⟨3, -1, 0⟩)
    dartPoly.plane.normal from by norm_num [Vector3.cross, Vector3.dot, dartPoly])]

theorem dart_convexB_2 : dartPoly.isConvexB ⟨0, 4, 0⟩ = true := by
  have hA : (ringGet dartPoly.vertices (2 + 1)).subtract ⟨0, 4, 0⟩ = ⟨0, -4, 0⟩ := by
    norm_num [ringGet, dartPoly, Vector3.subtract]
  have hB : (ringGet dartPoly.vertices
      (2 + dartPoly.vertices.length - 1)).subtract ⟨0, 4, 0⟩ = ⟨1, -3, 0⟩ := by
    norm_num [ringGet, dartPoly, Vector3.subtract]
  have hmA : Vector3.modulus ⟨0, -4, 0⟩ = 4 := modulus_eval (by norm_num) (by norm_num)
  have hmB : Vector3.modulus ⟨1, -3, 0⟩ = Real.sqrt 10 := by
    unfold Vector3.modulus
    norm_num
  have hθ : Vector3.angleFrom ((ringGet dartPoly.vertices (2 + 1)).subtract ⟨0, 4, 0⟩)
      ((ringGet dartPoly.vertices (2 + dartPoly.vertices.length - 1)).subtract ⟨0, 4, 0⟩) =
      some (Real.arccos (12 / (4 * Real.sqrt 10))) := by
    rw [hA, hB, angleFrom_eval hmA hmB (by norm_num) sqrt10_pos.ne']
    norm_num [Vector3.dot]
  have hr0 : (0 : ℝ) ≤ 12 / (4 * Real.sqrt 10) := by positivity
  have hc := isConvex_eval dart_nodeFor_2 hθ (by linarith) dart_r_bound.2
  rw [hA, hB] at hc
  unfold Polygon.isConvexB
  rw [hc, decide_eq_true (show (0 : ℝ) < Vector3.dot (Vector3.cross ⟨0, -4, 0⟩ ⟨1, -3, 0⟩)
    dartPoly.plane.normal from by norm_num [Vector3.cross, Vector3.dot, dartPoly])]

theorem dart_convexB_3 : dartPoly.isConvexB ⟨0, 0, 0⟩ = true := by
  have hA : (ringGet dartPoly.vertices (3 + 1)).subtract ⟨0, 0, 0⟩ = ⟨4, 0, 0⟩ := by
    norm_num [ringGet, dartPoly, Vector3.subtract]
  have hB : (ringGet dartPoly.vertices
      (3 + dartPoly.vertices.length - 1)).subtract ⟨0, 0, 0⟩ = ⟨0, 4, 0⟩ := by
    norm_num [ringGet, dartPoly, Vector3.subtract]
  have hmA : Vector3.modulus ⟨4, 0, 0⟩ = 4 := modulus_eval (by norm_num) (by norm_num)
  have hmB : Vector3.modulus ⟨0, 4, 0⟩ = 4 := modulus_eval (by norm_num) (by norm_num)
  have hθ : Vector3.angleFrom ((ringGet dartPoly.vertices (3 + 1)).subtract ⟨0, 0, 0⟩)
      ((ringGet dartPoly.vertices (3 + dartPoly.vertices.length - 1)).subtract ⟨0, 0, 0⟩) =
      some (Real.arccos 0) := by
    rw [hA, hB, angleFrom_eval hmA hmB (by norm_num) (by norm_num)]
    norm_num [Vector3.dot]
  have hc := isConvex_eval dart_nodeFor_3 hθ (by norm_num) (by norm_num)
  rw [hA, hB] at hc
  unfold Polygon.isConvexB
  rw [hc, decide_eq_true (show (0 : ℝ) < Vector3.dot (Vector3.cross ⟨4, 0, 0⟩ ⟨0, 4, 0⟩)
    dartPoly.plane.normal from by norm_num [Vector3.cross, Vector3.dot, dartPoly])]

theorem dart_convexVertices :
    dartPoly.convexVertices = [⟨4, 0, 0⟩, ⟨0, 4, 0⟩, ⟨0, 0, 0⟩] := by
  unfold Polygon.convexVertices
  rw [show dartPoly.vertices =
    [⟨4, 0, 0⟩, ⟨1, 1, 0⟩, ⟨0, 4, 0⟩, ⟨0, 0, 0⟩] from rfl]
  simp [List.filter_cons, dart_convexB_0, dart_convexB_1, dart_convexB_2, dart_convexB_3]

theorem dart_reflexVertices : dartPoly.reflexVertices = [⟨1, 1, 0⟩] := by
  unfold Polygon.reflexVertices
  rw [show dartPoly.vertices =
    [⟨4, 0, 0⟩, ⟨1, 1, 0⟩, ⟨0, 4, 0⟩, ⟨0, 0, 0⟩] from rfl]
  simp [List.filter_cons, dart_convexB_0, dart_convexB_1, dart_convexB_2, dart_convexB_3]

/-! ### Running the ear-clipping loop -/

theorem earClip_triangle (orig : Plane) (oracle : ℕ → ℕ) (fuel k : ℕ) (poly : Polygon)
    (hf : fuel ≠ 0) (h3 : poly.vertices.length = 3) :
    earClip orig oracle fuel k poly = .ok [poly] := by
  cases fuel with
  | zero => exact absurd rfl hf
  | succ n =>
    unfold earClip
    rw [if_pos h3]

theorem earClip_step (orig : Plane) (oracle : ℕ → ℕ) (fuel k : ℕ) (poly : Polygon)
    (hf : fuel ≠ 0) (hne : ¬ poly.vertices.length = 3) {trig : Polygon} {main : Vector3}
    (hscan : earScan orig poly (oracle k) (List.range poly.convexVertices.length) =
      .ok (some (trig, main))) :
    earClip orig oracle fuel k poly =
      Except.map (List.cons trig)
        (earClip orig oracle (fuel - 1) (k + 1) (poly.removeVertex main)) := by
  cases fuel with
  | zero => exact absurd rfl hf
  | succ n =>
    simp only [earClip]
    rw [if_neg hne, hscan]
    cases h : earClip orig oracle n (k + 1) (poly.removeVertex main) <;>
      simp [h, Except.map]

theorem dart_remove : dartPoly.removeVertex ⟨4, 0, 0⟩ =
    ⟨[⟨1, 1, 0⟩, ⟨0, 4, 0⟩, ⟨0, 0, 0⟩], dartPoly.plane⟩ := by
  have e0 : Vector3.eql ⟨4, 0, 0⟩ ⟨4, 0, 0⟩ precision := eql_refl _
  have e1 : ¬ Vector3.eql ⟨4, 0, 0⟩ ⟨1, 1, 0⟩ precision := by
    norm_num [Vector3.eql, precision]
  have e2 : ¬ Vector3.eql ⟨4, 0, 0⟩ ⟨0, 4, 0⟩ precision := by
    norm_num [Vector3.eql, precision]
  have e3 : ¬ Vector3.eql ⟨4, 0, 0⟩ ⟨0, 0, 0⟩ precision := by
    norm_num [Vector3.eql, precision]
  unfold Polygon.removeVertex
  rw [if_neg (by norm_num [dartPoly])]
  rw [show dartPoly.vertices =
    [⟨4, 0, 0⟩, ⟨1, 1, 0⟩, ⟨0, 4, 0⟩, ⟨0, 0, 0⟩] from rfl]
  simp [List.filter_cons, e0, e1, e2, e3]

theorem dart_earTry : earTry dartPoly.plane dartPoly (0 + 0) = .ok (some
    (⟨[⟨4, 0, 0⟩, ⟨1, 1, 0⟩, ⟨0, 0, 0⟩], dartPoly.plane⟩, ⟨4, 0, 0⟩)) := by
  have hg : ringGet dartPoly.convexVertices (0 + 0) = ⟨4, 0, 0⟩ := by
    rw [dart_convexVertices]
    rfl
  have hv0 : ringGet dartPoly.vertices 0 = ⟨4, 0, 0⟩ := rfl
  have hv1 : ringGet dartPoly.vertices (0 + 1) = ⟨1, 1, 0⟩ := rfl
  have hv3 : ringGet dartPoly.vertices (0 + dartPoly.vertices.length - 1) = ⟨0, 0, 0⟩ := rfl
  simp only [earTry, hg, dart_nodeFor_0, hv0, hv1, hv3, dart_reflexVertices, reflexBlocks]
  norm_num [Vector3.mk.injEq]

theorem dart_earScan :
    earScan dartPoly.plane dartPoly 0 (List.range dartPoly.convexVertices.length) =
      .ok (some (⟨[⟨4, 0, 0⟩, ⟨1, 1, 0⟩, ⟨0, 0, 0⟩], dartPoly.plane⟩, ⟨4, 0, 0⟩)) := by
  have hrange : List.range dartPoly.convexVertices.length = [0, 1, 2] := by
    rw [dart_convexVertices]
    rfl
  rw [hrange]
  unfold earScan
  rw [dart_earTry]

theorem dart_run :
    dartPoly.toTriangles (fun _ => 0) = .ok
      [⟨[⟨4, 0, 0⟩, ⟨1, 1, 0⟩, ⟨0, 0, 0⟩], dartPoly.plane⟩,
       ⟨[⟨1, 1, 0⟩, ⟨0, 4, 0⟩, ⟨0, 0, 0⟩], dartPoly.plane⟩] := by
  unfold Polygon.toTriangles
  rw [earClip_step dartPoly.plane (fun _ => 0) dartPoly.vertices.length 0 dartPoly
    (by norm_num [dartPoly]) (by norm_num [dartPoly]) dart_earScan]
  rw [dart_remove]
  rw [earClip_triangle dartPoly.plane (fun _ => 0) (dartPoly.vertices.length - 1) (0 + 1)
    (⟨[⟨1, 1, 0⟩, ⟨0, 4, 0⟩, ⟨0, 0, 0⟩], dartPoly.plane⟩ : Polygon)
    (by norm_num [dartPoly]) rfl]
  rfl

/-! ### C2: the toTriangles/area identity fails on the dart -/

theorem dart_area : dartPoly.area = 12 := by
  have hm8 : Vector3.modulus ⟨(0 : ℝ), 0, 8⟩ = 8 := modulus_eval (by norm_num) (by norm_num)
  have hm16 : Vector3.modulus ⟨(0 : ℝ), 0, -16⟩ = 16 :=
    modulus_eval (by norm_num) (by norm_num)
  have hT1 : areaTri ⟨4, 0, 0⟩ ⟨1, 1, 0⟩ ⟨0, 4, 0⟩ = 4 := by
    unfold areaTri
    norm_num [hm8]
  have hT2 : areaTri ⟨4, 0, 0⟩ ⟨0, 4, 0⟩ ⟨0, 0, 0⟩ = 8 := by
    unfold areaTri
    norm_num [hm16]
  unfold Polygon.area
  rw [if_neg (by norm_num [dartPoly]), dart_fan]
  simp only [List.map, List.sum_cons, List.sum_nil]
  norm_num [ringGet, hT1, hT2, dartPoly, Vector3.dot]

theorem dart_triangle_areas :
    (⟨[⟨4, 0, 0⟩, ⟨1, 1, 0⟩, ⟨0, 0, 0⟩], dartPoly.plane⟩ : Polygon).area = 2 ∧
      (⟨[⟨1, 1, 0⟩, ⟨0, 4, 0⟩, ⟨0, 0, 0⟩], dartPoly.plane⟩ : Polygon).area = 2 := by
  have hm4 : Vector3.modulus ⟨(0 : ℝ), 0, -4⟩ = 4 := modulus_eval (by norm_num) (by norm_num)
  constructor <;>
  · unfold Polygon.area
    norm_num [ringGet, hm4, areaTri]

/-- C2 (code bug): for the simple planar dart quadrilateral, the ear-clipped
triangles have areas `2 + 2 = 4` (the true polygon area), but `area()`
returns `12`: the one-sided collinearity test hands both (clockwise) fan
triangles the parent plane, so their contributions enter the surface
integral with weight `+1` instead of `-1`.  The claimed identity
`sum(triangle.area()) == P.area()` fails by `8`, far beyond epsilon. -/
theorem toTriangles_area_mismatch :
    dartPoly.area = 12 ∧
      Except.map (fun ts => (ts.map Polygon.area).sum) (dartPoly.toTriangles fun _ => 0) =
        .ok 4 := by
  refine ⟨dart_area, ?_⟩
  rw [dart_run]
  simp only [Except.map, List.map, List.sum_cons, List.sum_nil]
  rw [dart_triangle_areas.1, dart_triangle_areas.2]
  norm_num

/-! ### C3: the ear-clipping loop count -/

theorem ringGet_mem {l : List Vector3} (hl : l ≠ []) (i : ℕ) : ringGet l i ∈ l := by
  unfold ringGet
  have hlen : 0 < l.length := List.length_pos.mpr hl
  have h : i % l.length < l.length := Nat.mod_lt _ hlen
  rw [List.getD_eq_getElem?_getD, List.getElem?_eq_getElem h]
  exact List.getElem_mem h

theorem nodeFor_ne_nil {P : Polygon} {v : Vector3} {j : ℕ}
    (h : P.nodeFor v = some j) : P.vertices ≠ [] := by
  intro hnil
  unfold Polygon.nodeFor at h
  rw [hnil] at h
  cases h

theorem filter_not_eql_length :
    ∀ (l : List Vector3), l.Pairwise (fun a b => ¬ a.eql b precision) →
      ∀ m ∈ l, (l.filter fun w => !decide (m.eql w precision)).length = l.length - 1 := by
  intro l
  induction l with
  | nil =>
    intro _ m hm
    cases hm
  | cons a rest ih =>
    intro hp m hm
    obtain ⟨hpa, hpr⟩ := List.pairwise_cons.mp hp
    rw [List.filter_cons]
    by_cases hma : m.eql a precision
    · have hmeq : m = a := by
        rcases List.mem_cons.mp hm with rfl | hmr
        · rfl
        · exact absurd (eql_symm hma) (hpa m hmr)
      subst hmeq
      rw [decide_eq_true hma]
      have hkeep : rest.filter (fun w => !decide (m.eql w precision)) = rest := by
        apply List.filter_eq_self.mpr
        intro w hw
        rw [decide_eq_false (hpa w hw)]
        rfl
      simp [hkeep]
    · have hmr : m ∈ rest := by
        rcases List.mem_cons.mp hm with rfl | hmr
        · exact absurd (eql_refl m) hma
        · exact hmr
      have hpos : 0 < rest.length := List.length_pos.mpr (List.ne_nil_of_mem hmr)
      rw [decide_eq_false hma]
      have hlen := ih hpr m hmr
      simp only [Bool.not_false, eq_self_iff_true, if_true, List.length_cons]
      rw [hlen]
      omega

theorem earTry_ok_some {orig : Plane} {poly : Polygon} {idx : ℕ}
    {trig : Polygon} {main : Vector3}
    (h : earTry orig poly idx = .ok (some (trig, main))) :
    trig.vertices.length = 3 ∧ main ∈ poly.vertices := by
  simp only [earTry] at h
  split at h
  · cases h
  · split at h
    · cases h
    · cases h
    · injection h with h1
      injection h1 with h2
      obtain ⟨rfl, rfl⟩ := Prod.mk.injEq .. |>.mp h2.symm
      next j hj _ _ =>
        exact ⟨rfl, ringGet_mem (nodeFor_ne_nil hj) j⟩

theorem earScan_ok_some {orig : Plane} {poly : Polygon} {offset : ℕ} :
    ∀ {l : List ℕ} {trig : Polygon} {main : Vector3},
      earScan orig poly offset l = .ok (some (trig, main)) →
      trig.vertices.length = 3 ∧ main ∈ poly.vertices := by
  intro l
  induction l with
  | nil =>
    intro trig main h
    cases h
  | cons i rest ih =>
    intro trig main h
    simp only [earScan] at h
    split at h
    · cases h
    · next res heq =>
      injection h with h1
      rw [h1] at heq
      exact earTry_ok_some heq
    · exact ih h

theorem removeVertex_facts {poly : Polygon} {main : Vector3}
    (hlen : ¬ poly.vertices.length = 3)
    (hd : poly.vertices.Pairwise fun a b => ¬ a.eql b precision)
    (hm : main ∈ poly.vertices) :
    (poly.removeVertex main).vertices.length = poly.vertices.length - 1 ∧
      (poly.removeVertex main).vertices.Sublist poly.vertices := by
  have hrem : (poly.removeVertex main).vertices =
      poly.vertices.filter fun w => !decide (main.eql w precision) := by
    unfold Polygon.removeVertex
    rw [if_neg hlen]
  rw [hrem]
  exact ⟨filter_not_eql_length poly.vertices hd main hm, List.filter_sublist _⟩

theorem earClip_count (orig : Plane) (oracle : ℕ → ℕ) :
    ∀ (fuel k : ℕ) (poly : Polygon) (ts : List Polygon),
      3 ≤ poly.vertices.length →
      poly.vertices.Pairwise (fun a b => ¬ a.eql b precision) →
      poly.vertices.length ≤ fuel →
      earClip orig oracle fuel k poly = .ok ts →
      ts.length = poly.vertices.length - 2 ∧ ∀ t ∈ ts, t.vertices.length = 3 := by
  intro fuel
  induction fuel with
  | zero =>
    intro k poly ts h3 hd hf h
    omega
  | succ n ih =>
    intro k poly ts h3 hd hf h
    by_cases hlen : poly.vertices.length = 3
    · rw [earClip_triangle orig oracle (n + 1) k poly (Nat.succ_ne_zero n) hlen] at h
      injection h with h
      subst h
      refine ⟨by simp [hlen], ?_⟩
      intro t ht
      rw [List.mem_singleton.mp ht]
      exact hlen
    · simp only [earClip] at h
      rw [if_neg hlen] at h
      split at h
      · cases h
      · cases h
      · next trig main heq =>
        split at h
        · cases h
        · next rest hrec =>
          injection h with h
          subst h
          obtain ⟨htl, hmm⟩ := earScan_ok_some heq
          obtain ⟨hlr, hsub⟩ := removeVertex_facts hlen hd hmm
          have hd' : (poly.removeVertex main).vertices.Pairwise
              fun a b => ¬ a.eql b precision := List.Pairwise.sublist hsub hd
          have h3' : 3 ≤ (poly.removeVertex main).vertices.length := by omega
          have hf' : (poly.removeVertex main).vertices.length ≤ n := by omega
          obtain ⟨ih1, ih2⟩ := ih (k + 1) (poly.removeVertex main) rest h3' hd' hf' hrec
          constructor
          · simp only [List.length_cons, ih1]
            omega
          · intro t ht
            rcases List.mem_cons.mp ht with rfl | htr
            · exact htl
            · exact ih2 t htr

/-- C3: for a polygon with `n ≥ 3` pairwise-distinct vertices (every simple
polygon qualifies), any completed run of `toTriangles` — any random oracle,
no internal invariant error — returns exactly `n - 2` polygons each with
exactly 3 vertices: the loop removes exactly one vertex per accepted ear and
stops when 3 remain. -/
theorem toTriangles_count (P : Polygon) (oracle : ℕ → ℕ) (ts : List Polygon)
    (h3 : 3 ≤ P.vertices.length)
    (hd : P.vertices.Pairwise fun a b => ¬ a.eql b precision)
    (h : P.toTriangles oracle = .ok ts) :
    ts.length = P.vertices.length - 2 ∧ ∀ t ∈ ts, t.vertices.length = 3 :=
  earClip_count P.plane oracle P.vertices.length 0 P ts h3 hd le_rfl h

/-! ### A complete run on the square, for the count witness -/

theorem sq_nodeFor_0 : sqPoly.nodeFor ⟨0, 0, 0⟩ = some 0 := by
  norm_num [Polygon.nodeFor, sqPoly, findIdxFrom, Vector3.eql, precision]

theorem sq_nodeFor_1 : sqPoly.nodeFor ⟨4, 0, 0⟩ = some 1 := by
  norm_num [Polygon.nodeFor, sqPoly, findIdxFrom, Vector3.eql, precision]

theorem sq_nodeFor_2 : sqPoly.nodeFor ⟨4, 4, 0⟩ = some 2 := by
  norm_num [Polygon.nodeFor, sqPoly, findIdxFrom, Vector3.eql, precision]

theorem sq_nodeFor_3 : sqPoly.nodeFor ⟨0, 4, 0⟩ = some 3 := by
  norm_num [Polygon.nodeFor, sqPoly, findIdxFrom, Vector3.eql, precision]

theorem sq_corner_convexB (v : Vector3) (i : ℕ) (A B : Vector3)
    (hi : sqPoly.nodeFor v = some i)
    (hA : (ringGet sqPoly.vertices (i + 1)).subtract v = A)
    (hB : (ringGet sqPoly.vertices (i + sqPoly.vertices.length - 1)).subtract v = B)
    (hmA : Vector3.modulus A = 4) (hmB : Vector3.modulus B = 4)
    (hdot : Vector3.dot A B = 0)
    (hcross : Vector3.dot (Vector3.cross A B) sqPoly.plane.normal = 16) :
    sqPoly.isConvexB v = true := by
  have hθ : Vector3.angleFrom ((ringGet sqPoly.vertices (i + 1)).subtract v)
      ((ringGet sqPoly.vertices (i + sqPoly.vertices.length - 1)).subtract v) =
      some (Real.arccos 0) := by
    rw [hA, hB, angleFrom_eval hmA hmB (by norm_num) (by norm_num), hdot]
    norm_num
  have hc := isConvex_eval hi hθ (by norm_num) (by norm_num)
  rw [hA, hB] at hc
  unfold Polygon.isConvexB
  rw [hc, decide_eq_true (show (0 : ℝ) <
    Vector3.dot (Vector3.cross A B) sqPoly.plane.normal from by rw [hcross]; norm_num)]

theorem sq_convexB_0 : sqPoly.isConvexB ⟨0, 0, 0⟩ = true :=
  sq_corner_convexB ⟨0, 0, 0⟩ 0 ⟨4, 0, 0⟩ ⟨0, 4, 0⟩ sq_nodeFor_0
    (by norm_num [ringGet, sqPoly, Vector3.subtract])
    (by norm_num [ringGet, sqPoly, Vector3.subtract])
    (modulus_eval (by norm_num) (by norm_num))
    (modulus_eval (by norm_num) (by norm_num))
    (by norm_num [Vector3.dot])
    (by norm_num [Vector3.cross, Vector3.dot, sqPoly])

theorem sq_convexB_1 : sqPoly.isConvexB ⟨4, 0, 0⟩ = true :=
  sq_corner_convexB ⟨4, 0, 0⟩ 1 ⟨0, 4, 0⟩ ⟨-4, 0, 0⟩ sq_nodeFor_1
    (by norm_num [ringGet, sqPoly, Vector3.subtract])
    (by norm_num [ringGet, sqPoly, Vector3.subtract])
    (modulus_eval (by norm_num) (by norm_num))
    (modulus_eval (by norm_num) (by norm_num))
    (by norm_num [Vector3.dot])
    (by norm_num [Vector3.cross, Vector3.dot, sqPoly])

theorem sq_convexB_2 : sqPoly.isConvexB ⟨4, 4, 0⟩ = true :=
  sq_corner_convexB ⟨4, 4, 0⟩ 2 ⟨-4, 0, 0⟩ ⟨0, -4, 0⟩ sq_nodeFor_2
    (by norm_num [ringGet, sqPoly, Vector3.subtract])
    (by norm_num [ringGet, sqPoly, Vector3.subtract])
    (modulus_eval (by norm_num) (by norm_num))
    (modulus_eval (by norm_num) (by norm_num))
    (by norm_num [Vector3.dot])
    (by norm_num [Vector3.cross, Vector3.dot, sqPoly])

theorem sq_convexB_3 : sqPoly.isConvexB ⟨0, 4, 0⟩ = true :=
  sq_corner_convexB ⟨0, 4, 0⟩ 3 ⟨0, -4, 0⟩ ⟨4, 0, 0⟩ sq_nodeFor_3
    (by norm_num [ringGet, sqPoly, Vector3.subtract])
    (by norm_num [ringGet, sqPoly, Vector3.subtract])
    (modulus_eval (by norm_num) (by norm_num))
    (modulus_eval (by norm_num) (by norm_num))
    (by norm_num [Vector3.dot])
    (by norm_num [Vector3.cross, Vector3.dot, sqPoly])

theorem sq_convexVertices :
    sqPoly.convexVertices = [⟨0, 0, 0⟩, ⟨4, 0, 0⟩, ⟨4, 4, 0⟩, ⟨0, 4, 0⟩] := by
  unfold Polygon.convexVertices
  rw [show sqPoly.vertices = [⟨0, 0, 0⟩, ⟨4, 0, 0⟩, ⟨4, 4, 0⟩, ⟨0, 4, 0⟩] from rfl]
  simp [List.filter_cons, sq_convexB_0, sq_convexB_1, sq_convexB_2, sq_convexB_3]

theorem sq_reflexVertices : sqPoly.reflexVertices = [] := by
  unfold Polygon.reflexVertices
  rw [show sqPoly.vertices = [⟨0, 0, 0⟩, ⟨4, 0, 0⟩, ⟨4, 4, 0⟩, ⟨0, 4, 0⟩] from rfl]
  simp [List.filter_cons, sq_convexB_0, sq_convexB_1, sq_convexB_2, sq_convexB_3]

theorem sq_earTry : earTry sqPoly.plane sqPoly (0 + 0) = .ok (some
    (⟨[⟨0, 0, 0⟩, ⟨4, 0, 0⟩, ⟨0, 4, 0⟩], sqPoly.plane⟩, ⟨0, 0, 0⟩)) := by
  have hg : ringGet sqPoly.convexVertices (0 + 0) = ⟨0, 0, 0⟩ := by
    rw [sq_convexVertices]
    rfl
  have hv0 : ringGet sqPoly.vertices 0 = ⟨0, 0, 0⟩ := rfl
  have hv1 : ringGet sqPoly.vertices (0 + 1) = ⟨4, 0, 0⟩ := rfl
  have hv3 : ringGet sqPoly.vertices (0 + sqPoly.vertices.length - 1) = ⟨0, 4, 0⟩ := rfl
  simp only [earTry, hg, sq_nodeFor_0, hv0, hv1, hv3, sq_reflexVertices, reflexBlocks]

theorem sq_remove : sqPoly.removeVertex ⟨0, 0, 0⟩ =
    ⟨[⟨4, 0, 0⟩, ⟨4, 4, 0⟩, ⟨0, 4, 0⟩], sqPoly.plane⟩ := by
  have e0 : Vector3.eql ⟨0, 0, 0⟩ ⟨0, 0, 0⟩ precision := eql_refl _
  have e1 : ¬ Vector3.eql ⟨0, 0, 0⟩ ⟨4, 0, 0⟩ precision := by
    norm_num [Vector3.eql, precision]
  have e2 : ¬ Vector3.eql ⟨0, 0, 0⟩ ⟨4, 4, 0⟩ precision := by
    norm_num [Vector3.eql, precision]
  have e3 : ¬ Vector3.eql ⟨0, 0, 0⟩ ⟨0, 4, 0⟩ precision := by
    norm_num [Vector3.eql, precision]
  unfold Polygon.removeVertex
  rw [if_neg (by norm_num [sqPoly])]
  rw [show sqPoly.vertices = [⟨0, 0, 0⟩, ⟨4, 0, 0⟩, ⟨4, 4, 0⟩, ⟨0, 4, 0⟩] from rfl]
  simp [List.filter_cons, e0, e1, e2, e3]

theorem sq_run :
    sqPoly.toTriangles (fun _ => 0) = .ok
      [⟨[⟨0, 0, 0⟩, ⟨4, 0, 0⟩, ⟨0, 4, 0⟩], sqPoly.plane⟩,
       ⟨[⟨4, 0, 0⟩, ⟨4, 4, 0⟩, ⟨0, 4, 0⟩], sqPoly.plane⟩] := by
  have hscan : earScan sqPoly.plane sqPoly 0 (List.range sqPoly.convexVertices.length) =
      .ok (some (⟨[⟨0, 0, 0⟩, ⟨4, 0, 0⟩, ⟨0, 4, 0⟩], sqPoly.plane⟩, ⟨0, 0, 0⟩)) := by
    have hrange : List.range sqPoly.convexVertices.length = [0, 1, 2, 3] := by
      rw [sq_convexVertices]
      rfl
    rw [hrange]
    unfold earScan
    rw [sq_earTry]
  unfold Polygon.toTriangles
  rw [earClip_step sqPoly.plane (fun _ => 0) sqPoly.vertices.length 0 sqPoly
    (by norm_num [sqPoly]) (by norm_num [sqPoly]) hscan]
  rw [sq_remove]
  rw [earClip_triangle sqPoly.plane (fun _ => 0) (sqPoly.vertices.length - 1) (0 + 1)
    (⟨[⟨4, 0, 0⟩, ⟨4, 4, 0⟩, ⟨0, 4, 0⟩], sqPoly.plane⟩ : Polygon)
    (by norm_num [sqPoly]) rfl]
  rfl

theorem sq_pairwise :
    sqPoly.vertices.Pairwise fun a b => ¬ a.eql b precision := by
  rw [show sqPoly.vertices = [⟨0, 0, 0⟩, ⟨4, 0, 0⟩, ⟨4, 4, 0⟩, ⟨0, 4, 0⟩] from rfl]
  norm_num [List.pairwise_cons, Vector3.eql, precision]

/-- C3 witness: the completed run on the square yields a list whose length
is `sqPoly.vertices.length - 2 = 2`. -/
theorem toTriangles_count_witness :
    ([⟨[⟨0, 0, 0⟩, ⟨4, 0, 0⟩, ⟨0, 4, 0⟩], sqPoly.plane⟩,
      ⟨[⟨4, 0, 0⟩, ⟨4, 4, 0⟩, ⟨0, 4, 0⟩], sqPoly.plane⟩] : List Polygon).length =
      sqPoly.vertices.length - 2 :=
  (toTriangles_count sqPoly (fun _ => 0) _ (by norm_num [sqPoly]) sq_pairwise sq_run).1

end

end Sylvester
